import Mathlib

/-!
Verification of the reasoner layer of `experiments/structured_procedure_follower.py`:
the `Reasoner` dialogue-state class (message transcript plus internal/external
mode flag) and the `StructuredReasoner.extract_info` structured-extraction
routine.  The chat-completion provider (`chatgpt.complete`) is an external
collaborator; each operation is parametrised by an oracle for it, whose
`Except` error constructor models a raised provider exception.
-/

namespace StructuredFollower

/-- A transcript message, as built by `Reasoner.add_message`
(`{'role': role, 'content': message}` with an optional `'name'` key). -/
structure Message where
  role : String
  content : String
  name : Option String := none
deriving Repr, DecidableEq

/-- The `Reasoner` object state: model identifier, message list, and the
`_is_internal` mode flag (`__init__`, lines 11-16 of the source). -/
structure ReasonerState where
  model : String
  messages : List Message
  is_internal : Bool
deriving Repr, DecidableEq

/-- `Reasoner.__init__(system_prompt=None, model='gpt-4')`: empty transcript,
optionally seeded with one system message; mode external. -/
def ReasonerState.mkInit (system_prompt : Option String) (model : String) : ReasonerState :=
  { model := model
    messages := match system_prompt with
      | some p => [{ role := "system", content := p }]
      | none => []
    is_internal := false }

/-- `Reasoner.add_message(role, message, name=None)`. -/
def ReasonerState.add_message (s : ReasonerState) (role content : String)
    (name : Option String := none) : ReasonerState :=
  { s with messages := s.messages ++ [{ role := role, content := content, name := name }] }

/-- The tag prefixed to monologue-flavoured assistant messages. -/
def monologueTag : String := "[Internal Monologue]: "

/-- The announcement appended by `external_dialogue` when leaving the internal mode. -/
def exitAnnounce : String :=
  monologueTag ++
    "I am now entering the external dialogue state. Everything I say there will be seen."

/-- The announcement appended by `internal_monologue` when entering the internal mode
(the source text contains apostrophes, written here via escapes). -/
def enterAnnounce : String :=
  monologueTag ++
    "I am now in the internal monologue state. I won\x27t be able to respond here, so I\x27ll use this space to think, reflect, and plan."

/-- The `'function'`-role marker recording entry into the internal monologue. -/
def enterMarkerMsg : Message :=
  { role := "function", content := "[Entered Internal Monologue]", name := some "enter_monologue" }

/-- The `'function'`-role marker recording exit from the internal monologue. -/
def exitMarkerMsg : Message :=
  { role := "function", content := "[Exited Internal Monologue]", name := some "exit_monologue" }

/-- Python `str.replace(old, new)` on character lists, for a nonempty `old`:
replace every non-overlapping occurrence, scanning left to right.  `fuel`
starts as the length of the scanned list, so it never runs out.  (For an empty
`old` Python would interleave `new` at every position; the embedding only ever
replaces the nonempty monologue tag.) -/
def pyReplaceAux (old new : List Char) : Nat → List Char → List Char
  | _, [] => []
  | 0, l => l
  | fuel + 1, c :: rest =>
    if !old.isEmpty && old.isPrefixOf (c :: rest) then
      new ++ pyReplaceAux old new fuel (rest.drop (old.length - 1))
    else
      c :: pyReplaceAux old new fuel rest

/-- Python `response.replace(old, new)` as `internal_monologue` uses it. -/
def pyReplace (s old new : String) : String :=
  ⟨pyReplaceAux old.data new.data s.data.length s.data⟩

/-- Everything `Reasoner.external_dialogue` does before its provider call
(lines 26-30): append the tagged thought; if internal, flip the flag and append
the exit announcement and the `exit_monologue` marker. -/
def ReasonerState.external_before (s : ReasonerState) (thought : String) : ReasonerState :=
  let s := s.add_message "assistant" (monologueTag ++ thought)
  if s.is_internal then
    (({ s with is_internal := false }).add_message "assistant" exitAnnounce).add_message
      "function" exitMarkerMsg.content (some "exit_monologue")
  else s

/-- `Reasoner.external_dialogue(thought)` (lines 24-33).  `complete` is the
`chatgpt.complete(messages=..., model=...)` oracle; `.error` models a raised
provider exception, which propagates while the messages appended so far stay. -/
def ReasonerState.external_dialogue (complete : List Message → Except String String)
    (s : ReasonerState) (thought : String) : ReasonerState × Except String String :=
  let s1 := s.external_before thought
  match complete s1.messages with
  | .error e => (s1, .error e)
  | .ok response => (s1.add_message "assistant" response, .ok response)

/-- Everything `Reasoner.internal_monologue` does before its provider call
(lines 36-40): if external, flip the flag and append the `enter_monologue`
marker and then the entry announcement; then append the tagged thought. -/
def ReasonerState.internal_before (s : ReasonerState) (thought : String) : ReasonerState :=
  let s :=
    if !s.is_internal then
      (({ s with is_internal := true }).add_message "function" enterMarkerMsg.content
        (some "enter_monologue")).add_message "assistant" enterAnnounce
    else s
  s.add_message "assistant" (monologueTag ++ thought)

/-- `Reasoner.internal_monologue(thought)` (lines 35-44).  The provider's reply
has every occurrence of the monologue tag removed (Python `str.replace`,
modelled by `pyReplace`), is re-tagged, appended, and returned. -/
def ReasonerState.internal_monologue (complete : List Message → Except String String)
    (s : ReasonerState) (thought : String) : ReasonerState × Except String String :=
  let s1 := s.internal_before thought
  match complete s1.messages with
  | .error e => (s1, .error e)
  | .ok response =>
    let response := pyReplace response monologueTag ""
    (s1.add_message "assistant" (monologueTag ++ response), .ok response)

/-- The spec's reading of step 3 of `internal_monologue`: remove the monologue
tag only when it stands as a prefix of the reply, returning any other reply
unchanged.  Stated from the spec's words, to compare against the source's
replace-all behaviour (`pyReplace`). -/
def stripTagPrefixSpec (response : String) : String :=
  if monologueTag.data.isPrefixOf response.data then
    ⟨response.data.drop monologueTag.data.length⟩
  else response

/-! ## Format strings

`extract_info` consults Python's `string.Formatter().parse` (line 95) and
`str.format` (line 128).  They are modelled here at character level for the
subset the script exercises: literal text with `{{`/`}}` escapes and
replacement fields `{name}` with optional `!conversion` and `:format_spec`
parts (braces inside a spec are tracked by depth; the finer points of
CPython's field grammar, such as `[...]` indexing swallowing colons, are
outside the modelled subset, which `none` results make explicit). -/

/-- One chunk of a parsed format string: literal text, or a replacement field
carrying the parts `Formatter.parse` reports (`field_name`, `conversion`,
`format_spec`). -/
inductive Segment where
  | lit (text : String)
  | field (name : String) (conv : Option Char) (spec : String)
deriving Repr, DecidableEq

/-- Scan the inside of a replacement field up to the closing `}` (nested braces
tracked by `depth`), returning the field text and the rest of the input; `none`
when the field is unterminated. -/
def scanFieldText : List Char → Nat → List Char → Option (List Char × List Char)
  | [], _, _ => none
  | '}' :: rest, 0, acc => some (acc.reverse, rest)
  | '}' :: rest, depth + 1, acc => scanFieldText rest depth ('}' :: acc)
  | '{' :: rest, depth, acc => scanFieldText rest (depth + 1) ('{' :: acc)
  | c :: rest, depth, acc => scanFieldText rest depth (c :: acc)

/-- Split a replacement field's text into field name, conversion and format
spec: the name runs to the first `!` or `:`; `!` must introduce a one-character
conversion followed by the end or by `:spec`. -/
def splitFieldText : List Char → List Char → Option (String × Option Char × String)
  | [], acc => some (⟨acc.reverse⟩, none, "")
  | ['!'], _ => none
  | '!' :: c :: rest, acc =>
    match rest with
    | [] => some (⟨acc.reverse⟩, some c, "")
    | ':' :: spec => some (⟨acc.reverse⟩, some c, ⟨spec⟩)
    | _ => none
  | ':' :: spec, acc => some (⟨acc.reverse⟩, none, ⟨spec⟩)
  | c :: rest, acc => splitFieldText rest (c :: acc)

/-- Parse a format string into segments.  `fuel` starts as the input length
(every step consumes at least one character, so it never runs out); `none`
models the `ValueError` that `Formatter.parse` raises on a lone `}` or an
unterminated `{`. -/
def parseFormatAux : Nat → List Char → Option (List Segment)
  | _, [] => some []
  | 0, _ => none
  | fuel + 1, l =>
    match l with
    | [] => some []
    | '{' :: '{' :: rest => (Segment.lit "\x7b" :: ·) <$> parseFormatAux fuel rest
    | '}' :: '}' :: rest => (Segment.lit "\x7d" :: ·) <$> parseFormatAux fuel rest
    | '{' :: rest =>
      match scanFieldText rest 0 [] with
      | none => none
      | some (fieldText, rest') =>
        match splitFieldText fieldText [] with
        | none => none
        | some (n, cv, sp) => (Segment.field n cv sp :: ·) <$> parseFormatAux fuel rest'
    | '}' :: _ => none
    | c :: rest => (Segment.lit (String.singleton c) :: ·) <$> parseFormatAux fuel rest

/-- `string.Formatter().parse(info_format)` as a whole. -/
def parseFormat (s : String) : Option (List Segment) :=
  parseFormatAux s.data.length s.data

/-- `[x for x in formatter.parse(info_format) if x[1] is not None]` (line 95):
the replacement fields of a parsed template, each as
`(field_name, conversion, format_spec)`. -/
def Segment.fieldPart : Segment → Option (String × Option Char × String)
  | .lit _ => none
  | .field n cv sp => some (n, cv, sp)

/-- The named-placeholder list of a parsed template. -/
def placeholders (segs : List Segment) : List (String × Option Char × String) :=
  segs.filterMap Segment.fieldPart

/-! ## Values and the pydantic model -/

/-- A decoded JSON argument value, covering the shapes the script extracts
(`int`, `bool`, `str`/enum names). -/
inductive Value where
  | int (n : Int)
  | str (s : String)
  | bool (b : Bool)
deriving Repr, DecidableEq

/-- Python `str(value)` on a `Value`. -/
def Value.pyStr : Value → String
  | .int n => toString n
  | .str s => s
  | .bool b => if b then "True" else "False"

/-- Python `repr(value)` on a `Value` (string escaping aside). -/
def Value.pyRepr : Value → String
  | .int n => toString n
  | .str s => "\x27" ++ s ++ "\x27"
  | .bool b => if b then "True" else "False"

/-- A pydantic `BaseModel` subclass, as far as `extract_info` consults it: the
declared fields in order, each with its default when it has one (`none` for a
required field). -/
structure PydModel where
  fields : List (String × Option Value)
deriving Repr, DecidableEq

/-- An unvalidated pydantic instance: its `__dict__` of set fields, and the
`__pydantic_fields_set__` metadata object that `model_construct` stored. -/
structure PydInstance where
  dict : List (String × Value)
  fields_set : Option (List (String × Value))
deriving Repr, DecidableEq

/-- Pydantic v2 `Model.model_construct(_fields_set=None, **values)`, modelled
from pydantic's documented semantics: the instance `__dict__` gets, for each
declared field, its entry of `values` when the key is there, else its declared
default when it has one (required fields without a value stay unset);
`_fields_set` — the FIRST, POSITIONAL parameter — is stored as metadata and
contributes no field values. -/
def PydModel.model_construct (m : PydModel) (fields_set : Option (List (String × Value)))
    (values : List (String × Value)) : PydInstance :=
  { dict := m.fields.filterMap fun f =>
      match values.lookup f.1 with
      | some v => some (f.1, v)
      | none => f.2.map fun d => (f.1, d)
    fields_set := fields_set }

/-- The value `extract_info` returns: a plain decoded value, or an unvalidated
pydantic instance. -/
inductive DecodedValue where
  | prim (v : Value)
  | inst (i : PydInstance)
deriving Repr, DecidableEq

/-- Python `str` on the returned value, as `info_format.format(...)` renders
it: `str(v)` for a plain value, and pydantic's `__str__` (space-separated
`field=repr(value)` pairs over `__dict__`) for an instance. -/
def DecodedValue.pyStr : DecodedValue → String
  | .prim v => v.pyStr
  | .inst i => String.intercalate " " (i.dict.map fun kv => kv.1 ++ "=" ++ kv.2.pyRepr)

/-- `output_type`: a pydantic `BaseModel` subclass, or a plain python type
(`int`, `bool`, an `Enum`, ...) named by `tyName`. -/
inductive OutputType where
  | model (m : PydModel)
  | prim (tyName : String)
deriving Repr, DecidableEq

/-- A field name usable as a plain `str.format` keyword: nonempty (an empty
name is auto-numbered and positional) and without attribute or index access. -/
def simpleName (n : String) : Bool :=
  !n.data.isEmpty && n.data.all fun c => c != '.' && c != '['

/-- `info_format.format(**{key: value})` (line 128), for the subset the script
uses: every replacement field must be exactly the keyword `key` as a plain
name with no conversion and an empty format spec; `none` models the exceptions
`str.format` raises on other or empty names (KeyError/IndexError) and stands
for the unmodelled conversion/format-spec machinery. -/
def renderSegments (key vstr : String) : List Segment → Option String
  | [] => some ""
  | .lit t :: rest => (t ++ ·) <$> renderSegments key vstr rest
  | .field n cv sp :: rest =>
    if n == key && simpleName n && cv.isNone && sp == "" then
      (vstr ++ ·) <$> renderSegments key vstr rest
    else none

/-! ## The structured-extraction operation -/

/-- The JSON-schema `parameters` sent to the provider: the pydantic model's
own `model_json_schema()`, or the schema of the one-field
`create_model("SingleFieldModel", **{field_name: (output_type, ...)})`
(lines 100-105). -/
inductive SchemaParams where
  | modelSchema (m : PydModel)
  | singleFieldModel (field : String) (tyName : String)
deriving Repr, DecidableEq

/-- The function-call schema built on lines 107-112. -/
structure FunctionSchema where
  name : String
  description : String
  parameters : SchemaParams
deriving Repr, DecidableEq

/-- One `chatgpt.complete` request as `extract_info` issues it (line 114):
the transcript, the model, the `functions` option, the `function_call`
forcing directive, and the cache hint. -/
structure CompletionRequest where
  messages : List Message
  model : String
  functions : List FunctionSchema
  function_call : String
  use_cache : Bool
deriving Repr, DecidableEq

/-- The provider's reply to a function-forcing request: a function-style
response (`role == 'function'`) carrying `name` and parsed `args`, or a plain
reply carrying `content`. -/
inductive ProviderResponse where
  | function (name : String) (args : List (String × Value))
  | plain (content : String)
deriving Repr, DecidableEq

/-- The exceptions `extract_info` can raise: `ValueError` from
`Formatter.parse`, the `assert` on the placeholder count (line 96), a raised
provider exception, line 116's non-function-response `Exception`, `KeyError`
from `popitem()` on an empty argument dict, and the modelled-subset boundary
of `str.format`. -/
inductive ExtractError where
  | valueError (msg : String)
  | usageError (msg : String)
  | providerError (msg : String)
  | unexpectedResponse (content : String)
  | keyError
  | formatError
deriving Repr, DecidableEq

/-- What one `extract_info` call did: the provider requests issued in order,
the final object state (changes made before a raise persist on the Python
object), and the returned value or the exception raised. -/
structure ExtractOutcome where
  trace : List CompletionRequest
  state : ReasonerState
  result : Except ExtractError DecodedValue
deriving Repr

/-- The request built on lines 107-114: one schema named
`remember_<field_name>`, its description string, and the directive forcing
that very function. -/
def mkRemember (s : ReasonerState) (info_format : String) (output_type : OutputType)
    (field_name : String) : CompletionRequest :=
  { messages := s.messages
    model := s.model
    functions := [{ name := "remember_" ++ field_name
                    description := "This function stores a piece of information in the format: \x27"
                      ++ info_format ++ "\x27."
                    parameters := match output_type with
                      | .model m => .modelSchema m
                      | .prim ty => .singleFieldModel field_name ty }]
    function_call := "remember_" ++ field_name
    use_cache := true }

/-- Lines 118-126: decode the returned arguments.  Pydantic branch:
`output_type.model_construct(value)` — the argument dict is passed as the
positional `_fields_set` parameter.  Plain branch: `value[field_name]`,
falling back on `KeyError` to `value.popitem()[1]` (the last key/value pair;
`popitem` itself raises `KeyError` on an empty dict). -/
def decodeArgs (output_type : OutputType) (field_name : String)
    (args : List (String × Value)) : Except ExtractError DecodedValue :=
  match output_type with
  | .model m => .ok (.inst (m.model_construct (some args) []))
  | .prim _ =>
    match args.lookup field_name with
    | some v => .ok (.prim v)
    | none =>
      match args.getLast? with
      | some kv => .ok (.prim kv.2)
      | none => .error .keyError

/-- Lines 107-130 of `extract_info`, after the placeholder count passed with
the single field `field_name`: build the forced-function request, call the
provider, check the response role, decode, render the template and append the
`Stored information` record tagged with the response's function name. -/
def extract_go (complete : CompletionRequest → Except String ProviderResponse)
    (s : ReasonerState) (info_format : String) (output_type : OutputType)
    (segs : List Segment) (field_name : String) : ExtractOutcome :=
  let req := mkRemember s info_format output_type field_name
  match complete req with
  | .error e => ⟨[req], s, .error (.providerError e)⟩
  | .ok (.plain content) => ⟨[req], s, .error (.unexpectedResponse content)⟩
  | .ok (.function fname args) =>
    match decodeArgs output_type field_name args with
    | .error e => ⟨[req], s, .error e⟩
    | .ok dv =>
      match renderSegments field_name dv.pyStr segs with
      | none => ⟨[req], s, .error .formatError⟩
      | some info =>
        ⟨[req],
         s.add_message "function" ("Stored information: \"" ++ info ++ "\"") (some fname),
         .ok dv⟩

/-- `StructuredReasoner.extract_info(info_format, output_type)` (lines 51-130),
parametrised by the `chatgpt.complete` oracle: parse the template, assert that
it has exactly one placeholder, then run the forced-function extraction. -/
def ReasonerState.extract_info (complete : CompletionRequest → Except String ProviderResponse)
    (s : ReasonerState) (info_format : String) (output_type : OutputType) : ExtractOutcome :=
  match parseFormat info_format with
  | none => ⟨[], s, .error (.valueError "bad format string")⟩
  | some segs =>
    match placeholders segs with
    | [(field_name, _, _)] => extract_go complete s info_format output_type segs field_name
    | _ => ⟨[], s, .error (.usageError "Only one format field is allowed.")⟩

/-! ## Transition markers and the mode invariant -/

/-- Is a message one of the two mode-transition markers?  Both are appended
with an explicit `name`, which no other dialogue-path message carries. -/
def isTransMarker (m : Message) : Bool :=
  m.name == some "enter_monologue" || m.name == some "exit_monologue"

/-- The subsequence of mode-transition markers of a transcript. -/
def transMarkers (msgs : List Message) : List Message :=
  msgs.filter isTransMarker

/-- The mode invariant: the flag is internal exactly when the most recently
inserted transition marker is the `enter_monologue` marker (and so is not yet
matched by an `exit_monologue` one). -/
def modeMarkerInv (s : ReasonerState) : Prop :=
  s.is_internal = true ↔ (transMarkers s.messages).getLast? = some enterMarkerMsg

/-- One call of the dialogue layer. -/
inductive DialogueCall where
  | think (thought : String)
  | speak (thought : String)

/-- Run a sequence of `internal_monologue`/`external_dialogue` calls against a
provider oracle, keeping the evolving state. -/
def runCalls (complete : List Message → Except String String) (s : ReasonerState) :
    List DialogueCall → ReasonerState
  | [] => s
  | .think t :: rest => runCalls complete (s.internal_monologue complete t).1 rest
  | .speak t :: rest => runCalls complete (s.external_dialogue complete t).1 rest

lemma transMarkers_append (msgs : List Message) (m : Message) :
    transMarkers (msgs ++ [m])
      = transMarkers msgs ++ if isTransMarker m then [m] else [] := by
  simp [transMarkers, List.filter_append, List.filter_cons]

lemma internal_before_of_external (s : ReasonerState) (t : String)
    (h : s.is_internal = false) :
    s.internal_before t =
      { model := s.model
        messages := s.messages ++ [enterMarkerMsg, ⟨"assistant", enterAnnounce, none⟩,
          ⟨"assistant", monologueTag ++ t, none⟩]
        is_internal := true } := by
  simp [ReasonerState.internal_before, ReasonerState.add_message, h, enterMarkerMsg]

lemma internal_before_of_internal (s : ReasonerState) (t : String)
    (h : s.is_internal = true) :
    s.internal_before t =
      { s with messages := s.messages ++ [⟨"assistant", monologueTag ++ t, none⟩] } := by
  simp [ReasonerState.internal_before, ReasonerState.add_message, h]

lemma external_before_of_internal (s : ReasonerState) (t : String)
    (h : s.is_internal = true) :
    s.external_before t =
      { model := s.model
        messages := s.messages ++ [⟨"assistant", monologueTag ++ t, none⟩,
          ⟨"assistant", exitAnnounce, none⟩, exitMarkerMsg]
        is_internal := false } := by
  simp [ReasonerState.external_before, ReasonerState.add_message, h, exitMarkerMsg]

lemma external_before_of_external (s : ReasonerState) (t : String)
    (h : s.is_internal = false) :
    s.external_before t =
      { s with messages := s.messages ++ [⟨"assistant", monologueTag ++ t, none⟩] } := by
  simp [ReasonerState.external_before, ReasonerState.add_message, h]

lemma internal_monologue_fst (complete : List Message → Except String String)
    (s : ReasonerState) (t : String) :
    (s.internal_monologue complete t).1 = s.internal_before t ∨
    ∃ r, (s.internal_monologue complete t).1
      = (s.internal_before t).add_message "assistant"
          (monologueTag ++ pyReplace r monologueTag "") := by
  cases h : complete (s.internal_before t).messages with
  | error e => exact .inl (by simp [ReasonerState.internal_monologue, h])
  | ok r => exact .inr ⟨r, by simp [ReasonerState.internal_monologue, h]⟩

lemma external_dialogue_fst (complete : List Message → Except String String)
    (s : ReasonerState) (t : String) :
    (s.external_dialogue complete t).1 = s.external_before t ∨
    ∃ r, (s.external_dialogue complete t).1
      = (s.external_before t).add_message "assistant" r := by
  cases h : complete (s.external_before t).messages with
  | error e => exact .inl (by simp [ReasonerState.external_dialogue, h])
  | ok r => exact .inr ⟨r, by simp [ReasonerState.external_dialogue, h]⟩

lemma internal_monologue_markers (complete : List Message → Except String String)
    (s : ReasonerState) (t : String) :
    transMarkers (s.internal_monologue complete t).1.messages
        = transMarkers (s.internal_before t).messages ∧
    (s.internal_monologue complete t).1.is_internal = (s.internal_before t).is_internal := by
  rcases internal_monologue_fst complete s t with h | ⟨r, h⟩ <;>
    simp [h, ReasonerState.add_message, transMarkers_append, isTransMarker]

lemma external_dialogue_markers (complete : List Message → Except String String)
    (s : ReasonerState) (t : String) :
    transMarkers (s.external_dialogue complete t).1.messages
        = transMarkers (s.external_before t).messages ∧
    (s.external_dialogue complete t).1.is_internal = (s.external_before t).is_internal := by
  rcases external_dialogue_fst complete s t with h | ⟨r, h⟩ <;>
    simp [h, ReasonerState.add_message, transMarkers_append, isTransMarker]

lemma internal_before_markers (s : ReasonerState) (t : String) :
    (s.internal_before t).is_internal = true ∧
    transMarkers (s.internal_before t).messages
      = if s.is_internal then transMarkers s.messages
        else transMarkers s.messages ++ [enterMarkerMsg] := by
  by_cases h : s.is_internal
  · simp [internal_before_of_internal s t h, h, transMarkers_append, isTransMarker]
  · simp only [Bool.not_eq_true] at h
    simp [internal_before_of_external s t h, h, transMarkers, List.filter_append,
      List.filter_cons, isTransMarker, enterMarkerMsg]

lemma external_before_markers (s : ReasonerState) (t : String) :
    (s.external_before t).is_internal = false ∧
    transMarkers (s.external_before t).messages
      = if s.is_internal then transMarkers s.messages ++ [exitMarkerMsg]
        else transMarkers s.messages := by
  by_cases h : s.is_internal
  · simp [external_before_of_internal s t h, h, transMarkers, List.filter_append,
      List.filter_cons, isTransMarker, exitMarkerMsg]
  · simp only [Bool.not_eq_true] at h
    simp [external_before_of_external s t h, h, transMarkers_append, isTransMarker]

lemma internal_monologue_inv (complete : List Message → Except String String)
    (s : ReasonerState) (t : String) (h : modeMarkerInv s) :
    modeMarkerInv (s.internal_monologue complete t).1 := by
  obtain ⟨hm, hf⟩ := internal_monologue_markers complete s t
  obtain ⟨hbf, hbm⟩ := internal_before_markers s t
  unfold modeMarkerInv at h ⊢
  rw [hm, hf, hbf, hbm]
  by_cases hi : s.is_internal
  · simpa [hi] using h
  · simp [hi]
lemma external_dialogue_inv (complete : List Message → Except String String)
    (s : ReasonerState) (t : String) (h : modeMarkerInv s) :
    modeMarkerInv (s.external_dialogue complete t).1 := by
  obtain ⟨hm, hf⟩ := external_dialogue_markers complete s t
  obtain ⟨hbf, hbm⟩ := external_before_markers s t
  unfold modeMarkerInv at h ⊢
  rw [hm, hf, hbf, hbm]
  by_cases hi : s.is_internal
  · simp [hi]
    decide
  · simp only [Bool.not_eq_true] at hi
    simp only [hi, if_false]
    simp [hi] at h
    simp [h]

lemma runCalls_inv (complete : List Message → Except String String)
    (calls : List DialogueCall) (s : ReasonerState) (h : modeMarkerInv s) :
    modeMarkerInv (runCalls complete s calls) := by
  induction calls generalizing s with
  | nil => exact h
  | cons c rest ih =>
    cases c with
    | think t => exact ih _ (internal_monologue_inv complete s t h)
    | speak t => exact ih _ (external_dialogue_inv complete s t h)

lemma mkInit_inv (sys : Option String) (model : String) :
    modeMarkerInv (ReasonerState.mkInit sys model) := by
  cases sys <;>
    simp [modeMarkerInv, ReasonerState.mkInit, transMarkers, List.filter_cons, isTransMarker]

/-- C3: for every sequence of `internal_monologue`/`external_dialogue` calls
from a fresh reasoner, the mode flag is internal iff the most recently
inserted transition marker is an unmatched `enter_monologue` marker; a call in
its own mode inserts no markers, and each actual transition inserts its marker
exactly once. -/
theorem C3_mode_marker_invariant :
    (∀ (complete : List Message → Except String String) (sys : Option String)
        (model : String) (calls : List DialogueCall),
      modeMarkerInv (runCalls complete (ReasonerState.mkInit sys model) calls))
    ∧ (∀ complete (s : ReasonerState) (t : String), s.is_internal = true →
        transMarkers (s.internal_monologue complete t).1.messages = transMarkers s.messages)
    ∧ (∀ complete (s : ReasonerState) (t : String), s.is_internal = false →
        transMarkers (s.external_dialogue complete t).1.messages = transMarkers s.messages)
    ∧ (∀ complete (s : ReasonerState) (t : String), s.is_internal = false →
        transMarkers (s.internal_monologue complete t).1.messages
          = transMarkers s.messages ++ [enterMarkerMsg])
    ∧ (∀ complete (s : ReasonerState) (t : String), s.is_internal = true →
        transMarkers (s.external_dialogue complete t).1.messages
          = transMarkers s.messages ++ [exitMarkerMsg]) := by
  refine ⟨fun complete sys model calls => runCalls_inv complete calls _ (mkInit_inv sys model),
    fun complete s t h => ?_, fun complete s t h => ?_,
    fun complete s t h => ?_, fun complete s t h => ?_⟩
  · rw [(internal_monologue_markers complete s t).1, (internal_before_markers s t).2, if_pos h]
  · rw [(external_dialogue_markers complete s t).1, (external_before_markers s t).2, if_neg]
    simp [h]
  · rw [(internal_monologue_markers complete s t).1, (internal_before_markers s t).2, if_neg]
    simp [h]
  · rw [(external_dialogue_markers complete s t).1, (external_before_markers s t).2, if_pos h]

/-! ## Concrete scenario material -/

/-- A fresh reasoner, as the demo driver builds one (no system prompt here). -/
def demoState : ReasonerState := ReasonerState.mkInit none "gpt-4"

/-- A reasoner already in the internal-monologue mode. -/
def internalState : ReasonerState := { model := "gpt-4", messages := [], is_internal := true }

/-- A dialogue oracle that always answers `"R"`. -/
def okROracle : List Message → Except String String := fun _ => .ok "R"

/-- A dialogue oracle whose reply carries the monologue tag mid-string, not as
a prefix. -/
def tagMidOracle : List Message → Except String String :=
  fun _ => .ok "x [Internal Monologue]: y"

/-- C4, counterexample: on a fresh (external-mode) state, `internal_monologue`
appends the `function`-role `enter_monologue` marker FIRST and the assistant
entry explanation second, not the other way round as the claim orders them. -/
theorem C4_order_counterexample :
    (demoState.internal_monologue okROracle "plan X").1.messages
      = [enterMarkerMsg, ⟨"assistant", enterAnnounce, none⟩,
         ⟨"assistant", monologueTag ++ "plan X", none⟩,
         ⟨"assistant", monologueTag ++ "R", none⟩]
    ∧ (demoState.internal_monologue okROracle "plan X").1.messages
      ≠ [⟨"assistant", enterAnnounce, none⟩, enterMarkerMsg,
         ⟨"assistant", monologueTag ++ "plan X", none⟩,
         ⟨"assistant", monologueTag ++ "R", none⟩]
    ∧ enterMarkerMsg.role = "function" := by
  exact ⟨by decide, by decide, rfl⟩

/-- C4, amended: on an external-mode state, `internal_monologue` appends, in
this order, the `function`-role `enter_monologue` marker, then the assistant
message explaining entry, then the internal-tagged thought — exactly 3 new
messages before the provider response is appended, 4 in total. -/
theorem C4_entry_messages_amended (complete : List Message → Except String String)
    (s : ReasonerState) (t r : String) (hext : s.is_internal = false)
    (hok : complete (s.internal_before t).messages = .ok r) :
    (s.internal_monologue complete t).1.messages
      = s.messages ++ [enterMarkerMsg, ⟨"assistant", enterAnnounce, none⟩,
          ⟨"assistant", monologueTag ++ t, none⟩,
          ⟨"assistant", monologueTag ++ pyReplace r monologueTag "", none⟩]
    ∧ (s.internal_before t).messages
      = s.messages ++ [enterMarkerMsg, ⟨"assistant", enterAnnounce, none⟩,
          ⟨"assistant", monologueTag ++ t, none⟩] := by
  have hb := internal_before_of_external s t hext
  rw [hb] at hok
  constructor
  · simp [ReasonerState.internal_monologue, hok, hb, ReasonerState.add_message]
  · rw [hb]

/-- C4, witness for the amended theorem at a concrete run. -/
theorem C4_entry_messages_amended_witness :
    (demoState.internal_monologue okROracle "plan X").1.messages
      = demoState.messages ++ [enterMarkerMsg, ⟨"assistant", enterAnnounce, none⟩,
          ⟨"assistant", monologueTag ++ "plan X", none⟩,
          ⟨"assistant", monologueTag ++ pyReplace "R" monologueTag "", none⟩]
    ∧ (demoState.internal_before "plan X").messages
      = demoState.messages ++ [enterMarkerMsg, ⟨"assistant", enterAnnounce, none⟩,
          ⟨"assistant", monologueTag ++ "plan X", none⟩] :=
  C4_entry_messages_amended okROracle demoState "plan X" "R" rfl rfl

/-- C6, counterexample: a reply whose monologue tag is not a prefix is still
rewritten (every occurrence of the tag is removed), so the returned text is
not the prefix-stripped reply. -/
theorem C6_tag_replace_counterexample :
    (internalState.internal_monologue tagMidOracle "t").2 = .ok "x y"
    ∧ stripTagPrefixSpec "x [Internal Monologue]: y" = "x [Internal Monologue]: y"
    ∧ ("x y" : String) ≠ "x [Internal Monologue]: y" := by
  exact ⟨rfl, by decide, by decide⟩

/-- C6, amended: `internal_monologue` removes every occurrence of the
internal-monologue tag from the provider's reply (in particular a leading
one), appends the cleaned text re-tagged as an assistant message, and returns
the cleaned text; a reply without the tag anywhere is returned unchanged. -/
theorem C6_tag_replace_amended (complete : List Message → Except String String)
    (s : ReasonerState) (t r : String)
    (hok : complete (s.internal_before t).messages = .ok r) :
    (s.internal_monologue complete t).2 = .ok (pyReplace r monologueTag "")
    ∧ (s.internal_monologue complete t).1
        = (s.internal_before t).add_message "assistant"
            (monologueTag ++ pyReplace r monologueTag "") := by
  constructor <;> simp [ReasonerState.internal_monologue, hok]

/-- C6, witness for the amended theorem at a concrete run. -/
theorem C6_tag_replace_amended_witness :
    (internalState.internal_monologue tagMidOracle "t").2
      = .ok (pyReplace "x [Internal Monologue]: y" monologueTag "")
    ∧ (internalState.internal_monologue tagMidOracle "t").1
      = (internalState.internal_before "t").add_message "assistant"
          (monologueTag ++ pyReplace "x [Internal Monologue]: y" monologueTag "") :=
  C6_tag_replace_amended tagMidOracle internalState "t" "x [Internal Monologue]: y" rfl

/-! ## Lemmas about the extraction path -/

lemma placeholders_cons_lit (t : String) (rest : List Segment) :
    placeholders (Segment.lit t :: rest) = placeholders rest := by
  simp [placeholders, Segment.fieldPart]

lemma placeholders_cons_field (n : String) (cv : Option Char) (sp : String)
    (rest : List Segment) :
    placeholders (Segment.field n cv sp :: rest) = (n, cv, sp) :: placeholders rest := by
  simp [placeholders, Segment.fieldPart]

lemma decodeArgs_error (ty : OutputType) (f : String) (args : List (String × Value))
    (e : ExtractError) (h : decodeArgs ty f args = .error e) : e = .keyError := by
  cases ty with
  | model m => simp [decodeArgs] at h
  | prim n =>
    unfold decodeArgs at h
    cases hl : args.lookup f with
    | some v => rw [hl] at h; simp at h
    | none =>
      rw [hl] at h
      cases hg : args.getLast? with
      | some kv => rw [hg] at h; simp at h
      | none => rw [hg] at h; simpa using h.symm

lemma extract_info_eq_go (complete : CompletionRequest → Except String ProviderResponse)
    (s : ReasonerState) (fmt : String) (ty : OutputType) (segs : List Segment)
    (f : String) (cv : Option Char) (sp : String)
    (hparse : parseFormat fmt = some segs) (hpl : placeholders segs = [(f, cv, sp)]) :
    ReasonerState.extract_info complete s fmt ty = extract_go complete s fmt ty segs f := by
  simp [ReasonerState.extract_info, hparse, hpl]

lemma extract_info_usage (complete : CompletionRequest → Except String ProviderResponse)
    (s : ReasonerState) (fmt : String) (ty : OutputType) (segs : List Segment)
    (hparse : parseFormat fmt = some segs) (hne : (placeholders segs).length ≠ 1) :
    ReasonerState.extract_info complete s fmt ty
      = ⟨[], s, .error (.usageError "Only one format field is allowed.")⟩ := by
  cases hpl : placeholders segs with
  | nil => simp [ReasonerState.extract_info, hparse, hpl]
  | cons hd tl =>
    obtain ⟨f, cv, sp⟩ := hd
    cases tl with
    | nil => rw [hpl] at hne; simp at hne
    | cons hd2 tl2 =>
      obtain ⟨f2, cv2, sp2⟩ := hd2
      simp [ReasonerState.extract_info, hparse, hpl]

lemma extract_go_spec (complete : CompletionRequest → Except String ProviderResponse)
    (s : ReasonerState) (fmt : String) (ty : OutputType) (segs : List Segment) (f : String) :
    (extract_go complete s fmt ty segs f).trace = [mkRemember s fmt ty f] ∧
    (((extract_go complete s fmt ty segs f).state = s ∧
        ∃ e, (extract_go complete s fmt ty segs f).result = .error e ∧
          ∀ m, e ≠ .usageError m) ∨
      ∃ dv info fname,
        (extract_go complete s fmt ty segs f).result = .ok dv ∧
        (extract_go complete s fmt ty segs f).state
          = s.add_message "function" ("Stored information: \"" ++ info ++ "\"") (some fname)) := by
  cases hr : complete (mkRemember s fmt ty f) with
  | error e =>
    exact ⟨by simp [extract_go, hr], Or.inl ⟨by simp [extract_go, hr], .providerError e,
      by simp [extract_go, hr], by intro m; simp⟩⟩
  | ok resp =>
    cases resp with
    | plain content =>
      exact ⟨by simp [extract_go, hr], Or.inl ⟨by simp [extract_go, hr],
        .unexpectedResponse content, by simp [extract_go, hr], by intro m; simp⟩⟩
    | function fname args =>
      cases hd : decodeArgs ty f args with
      | error e =>
        have he : e = .keyError := decodeArgs_error ty f args e hd
        exact ⟨by simp [extract_go, hr, hd], Or.inl ⟨by simp [extract_go, hr, hd],
          e, by simp [extract_go, hr, hd], by intro m; simp [he]⟩⟩
      | ok dv =>
        cases hrend : renderSegments f dv.pyStr segs with
        | none =>
          exact ⟨by simp [extract_go, hr, hd, hrend],
            Or.inl ⟨by simp [extract_go, hr, hd, hrend], .formatError,
              by simp [extract_go, hr, hd, hrend], by intro m; simp⟩⟩
        | some info =>
          exact ⟨by simp [extract_go, hr, hd, hrend],
            Or.inr ⟨dv, info, fname, by simp [extract_go, hr, hd, hrend],
              by simp [extract_go, hr, hd, hrend]⟩⟩

lemma extract_info_state_cases (complete : CompletionRequest → Except String ProviderResponse)
    (s : ReasonerState) (fmt : String) (ty : OutputType) :
    ((ReasonerState.extract_info complete s fmt ty).state = s ∧
      ∃ e, (ReasonerState.extract_info complete s fmt ty).result = .error e) ∨
    ∃ dv info fname,
      (ReasonerState.extract_info complete s fmt ty).result = .ok dv ∧
      (ReasonerState.extract_info complete s fmt ty).state
        = s.add_message "function" ("Stored information: \"" ++ info ++ "\"") (some fname) := by
  cases hp : parseFormat fmt with
  | none =>
    refine Or.inl ⟨?_, .valueError "bad format string", ?_⟩ <;>
      simp [ReasonerState.extract_info, hp]
  | some segs =>
    by_cases h2 : ∃ x, placeholders segs = [x]
    · obtain ⟨⟨f, cv, sp⟩, hpl⟩ := h2
      rw [extract_info_eq_go complete s fmt ty segs f cv sp hp hpl]
      rcases (extract_go_spec complete s fmt ty segs f).2 with ⟨hs, e, he, -⟩ | h
      · exact Or.inl ⟨hs, e, he⟩
      · exact Or.inr h
    · have hne : (placeholders segs).length ≠ 1 := fun hc => h2 (List.length_eq_one.mp hc)
      rw [extract_info_usage complete s fmt ty segs hp hne]
      exact Or.inl ⟨rfl, _, rfl⟩

lemma renderSegments_total (key vstr : String) (segs : List Segment)
    (hall : ∀ p ∈ placeholders segs, p = (key, (none : Option Char), ""))
    (hs : simpleName key = true) :
    ∃ r, renderSegments key vstr segs = some r := by
  induction segs with
  | nil => exact ⟨"", rfl⟩
  | cons seg rest ih =>
    cases seg with
    | lit t =>
      obtain ⟨r, hr⟩ := ih fun p hp => hall p (by rw [placeholders_cons_lit]; exact hp)
      exact ⟨t ++ r, by simp [renderSegments, hr]⟩
    | field n cv sp =>
      have hhd : (n, cv, sp) = (key, (none : Option Char), "") :=
        hall _ (by rw [placeholders_cons_field]; exact List.mem_cons_self ..)
      obtain ⟨hn, hcv, hsp⟩ : n = key ∧ cv = none ∧ sp = "" := by
        simpa [Prod.ext_iff] using hhd
      obtain ⟨r, hr⟩ := ih fun p hp =>
        hall p (by rw [placeholders_cons_field]; exact List.mem_cons_of_mem _ hp)
      refine ⟨vstr ++ r, ?_⟩
      simp [renderSegments, hn, hcv, hsp, hs, hr]

/-! ## Append-only facts -/

lemma internal_before_messages (s : ReasonerState) (t : String) :
    ∃ l, (s.internal_before t).messages = s.messages ++ l ∧ l ≠ [] := by
  by_cases h : s.is_internal
  · exact ⟨_, by rw [internal_before_of_internal s t h], by simp⟩
  · simp only [Bool.not_eq_true] at h
    exact ⟨_, by rw [internal_before_of_external s t h], by simp⟩

lemma external_before_messages (s : ReasonerState) (t : String) :
    ∃ l, (s.external_before t).messages = s.messages ++ l ∧ l ≠ [] := by
  by_cases h : s.is_internal
  · exact ⟨_, by rw [external_before_of_internal s t h], by simp⟩
  · simp only [Bool.not_eq_true] at h
    exact ⟨_, by rw [external_before_of_external s t h], by simp⟩

lemma internal_monologue_messages (complete : List Message → Except String String)
    (s : ReasonerState) (t : String) :
    ∃ l, (s.internal_monologue complete t).1.messages = s.messages ++ l ∧ l ≠ [] := by
  obtain ⟨l, hl, hne⟩ := internal_before_messages s t
  rcases internal_monologue_fst complete s t with h | ⟨r, h⟩
  · exact ⟨l, by rw [h, hl], hne⟩
  · refine ⟨l ++ [⟨"assistant", monologueTag ++ pyReplace r monologueTag "", none⟩], ?_, by simp⟩
    rw [h, ReasonerState.add_message]
    simp [hl]

lemma external_dialogue_messages (complete : List Message → Except String String)
    (s : ReasonerState) (t : String) :
    ∃ l, (s.external_dialogue complete t).1.messages = s.messages ++ l ∧ l ≠ [] := by
  obtain ⟨l, hl, hne⟩ := external_before_messages s t
  rcases external_dialogue_fst complete s t with h | ⟨r, h⟩
  · exact ⟨l, by rw [h, hl], hne⟩
  · refine ⟨l ++ [⟨"assistant", r, none⟩], ?_, by simp⟩
    rw [h, ReasonerState.add_message]
    simp [hl]

/-- C9: every public operation only appends to the transcript — the previous
message sequence stays as an unchanged prefix of the new one. -/
theorem C9_append_only :
    (∀ (s : ReasonerState) (r c : String) (n : Option String),
      ∃ t, (s.add_message r c n).messages = s.messages ++ t)
    ∧ (∀ (complete : List Message → Except String String) (s : ReasonerState) (th : String),
      ∃ t, (s.external_dialogue complete th).1.messages = s.messages ++ t)
    ∧ (∀ (complete : List Message → Except String String) (s : ReasonerState) (th : String),
      ∃ t, (s.internal_monologue complete th).1.messages = s.messages ++ t)
    ∧ (∀ (complete : CompletionRequest → Except String ProviderResponse)
        (s : ReasonerState) (fmt : String) (ty : OutputType),
      ∃ t, (ReasonerState.extract_info complete s fmt ty).state.messages = s.messages ++ t) := by
  refine ⟨fun s r c n => ⟨[⟨r, c, n⟩], rfl⟩, fun complete s th => ?_, fun complete s th => ?_,
    fun complete s fmt ty => ?_⟩
  · obtain ⟨l, hl, -⟩ := external_dialogue_messages complete s th; exact ⟨l, hl⟩
  · obtain ⟨l, hl, -⟩ := internal_monologue_messages complete s th; exact ⟨l, hl⟩
  · rcases extract_info_state_cases complete s fmt ty with ⟨hstate, -⟩ | ⟨dv, info, fname, -, hstate⟩
    · exact ⟨[], by rw [hstate]; simp⟩
    · exact ⟨[⟨"function", "Stored information: \"" ++ info ++ "\"", some fname⟩],
        by rw [hstate]; rfl⟩

/-- C10: `extract_info` appends nothing before or during its provider call —
every raising path leaves the transcript untouched and a successful call
appends exactly one function-role record — while the dialogue operations
append their thought/marker messages before the provider call, so those stay
even when the provider raises. -/
theorem C10_extract_atomicity :
    (∀ (complete : CompletionRequest → Except String ProviderResponse)
        (s : ReasonerState) (fmt : String) (ty : OutputType) (e : ExtractError),
      (ReasonerState.extract_info complete s fmt ty).result = .error e →
      (ReasonerState.extract_info complete s fmt ty).state = s)
    ∧ (∀ (complete : CompletionRequest → Except String ProviderResponse)
        (s : ReasonerState) (fmt : String) (ty : OutputType) (dv : DecodedValue),
      (ReasonerState.extract_info complete s fmt ty).result = .ok dv →
      ∃ m : Message, m.role = "function" ∧
        (ReasonerState.extract_info complete s fmt ty).state.messages = s.messages ++ [m])
    ∧ (∀ (complete : List Message → Except String String) (s : ReasonerState) (t e : String),
      (s.internal_monologue complete t).2 = .error e →
      ∃ l, l ≠ [] ∧ (s.internal_monologue complete t).1.messages = s.messages ++ l)
    ∧ (∀ (complete : List Message → Except String String) (s : ReasonerState) (t e : String),
      (s.external_dialogue complete t).2 = .error e →
      ∃ l, l ≠ [] ∧ (s.external_dialogue complete t).1.messages = s.messages ++ l) := by
  refine ⟨fun complete s fmt ty e he => ?_, fun complete s fmt ty dv hdv => ?_,
    fun complete s t e _ => ?_, fun complete s t e _ => ?_⟩
  · rcases extract_info_state_cases complete s fmt ty with ⟨hstate, -⟩ | ⟨dv, info, fname, hok, -⟩
    · exact hstate
    · rw [hok] at he; cases he
  · rcases extract_info_state_cases complete s fmt ty with ⟨-, e, herr⟩ | ⟨dv2, info, fname, -, hstate⟩
    · rw [herr] at hdv; cases hdv
    · exact ⟨⟨"function", "Stored information: \"" ++ info ++ "\"", some fname⟩, rfl,
        by rw [hstate]; rfl⟩
  · obtain ⟨l, hl, hne⟩ := internal_monologue_messages complete s t
    exact ⟨l, hne, hl⟩
  · obtain ⟨l, hl, hne⟩ := external_dialogue_messages complete s t
    exact ⟨l, hne, hl⟩

/-! ## The extraction claims -/

/-- C2: on a parseable template, a placeholder count other than one makes
`extract_info` fail with the assertion's usage error, with no provider call
issued and no message appended; with exactly one placeholder that failure
never occurs. -/
theorem C2_usage_error_gate (complete : CompletionRequest → Except String ProviderResponse)
    (s : ReasonerState) (fmt : String) (ty : OutputType) (segs : List Segment)
    (hparse : parseFormat fmt = some segs) :
    ((placeholders segs).length ≠ 1 →
      ReasonerState.extract_info complete s fmt ty
        = ⟨[], s, .error (.usageError "Only one format field is allowed.")⟩)
    ∧ ((placeholders segs).length = 1 →
      ∀ m, (ReasonerState.extract_info complete s fmt ty).result
        ≠ .error (.usageError m)) := by
  constructor
  · exact extract_info_usage complete s fmt ty segs hparse
  · intro hone m hcontra
    obtain ⟨⟨f, cv, sp⟩, hpl⟩ := List.length_eq_one.mp hone
    rw [extract_info_eq_go complete s fmt ty segs f cv sp hparse hpl] at hcontra
    rcases (extract_go_spec complete s fmt ty segs f).2 with ⟨-, e, he, hnu⟩ | ⟨dv, info, fname, hok, -⟩
    · rw [he] at hcontra
      exact hnu m (by simpa using hcontra)
    · rw [hok] at hcontra
      cases hcontra

/-- An oracle that answers with a plain (non-function) reply. -/
def plainOracle : CompletionRequest → Except String ProviderResponse :=
  fun _ => .ok (.plain "hi")

/-- C2, witness: a two-placeholder template at a concrete run. -/
theorem C2_usage_error_gate_witness :
    ((placeholders [Segment.field "a" none "", Segment.field "b" none ""]).length ≠ 1 →
      ReasonerState.extract_info plainOracle demoState "{a}{b}" (.prim "int")
        = ⟨[], demoState, .error (.usageError "Only one format field is allowed.")⟩)
    ∧ ((placeholders [Segment.field "a" none "", Segment.field "b" none ""]).length = 1 →
      ∀ m, (ReasonerState.extract_info plainOracle demoState "{a}{b}" (.prim "int")).result
        ≠ .error (.usageError m)) :=
  C2_usage_error_gate plainOracle demoState "{a}{b}" (.prim "int")
    [Segment.field "a" none "", Segment.field "b" none ""] rfl

/-- C5: with a primitive target type and a function response carrying a single
argument whose key differs from the expected field name, `extract_info` still
returns that lone value (the `popitem` fallback) rather than failing. -/
theorem C5_fallback_lone_value (complete : CompletionRequest → Except String ProviderResponse)
    (s : ReasonerState) (fmt tyName : String) (segs : List Segment) (f k : String)
    (v : Value) (nm : String)
    (hparse : parseFormat fmt = some segs)
    (hpl : placeholders segs = [(f, none, "")])
    (hsimple : simpleName f = true)
    (hresp : complete (mkRemember s fmt (.prim tyName) f) = .ok (.function nm [(k, v)]))
    (hk : k ≠ f) :
    (ReasonerState.extract_info complete s fmt (.prim tyName)).result = .ok (.prim v) := by
  rw [extract_info_eq_go complete s fmt (.prim tyName) segs f none "" hparse hpl]
  have hdec : decodeArgs (.prim tyName) f [(k, v)] = .ok (.prim v) := by
    have hfk : (f == k) = false := beq_eq_false_iff_ne.mpr (Ne.symm hk)
    have hlk : ([(k, v)] : List (String × Value)).lookup f = none := by
      simp [List.lookup, hfk]
    simp [decodeArgs, hlk]
  obtain ⟨r, hrend⟩ := renderSegments_total f (DecodedValue.pyStr (.prim v)) segs
    (fun p hp => by rw [hpl] at hp; simpa using hp) hsimple
  simp [extract_go, hresp, hdec, hrend]

/-- An oracle answering a forced `remember_x` call with a mis-named key. -/
def yOracle : CompletionRequest → Except String ProviderResponse :=
  fun _ => .ok (.function "remember_x" [("y", .int 7)])

/-- C5, witness: the fallback at a concrete run. -/
theorem C5_fallback_lone_value_witness :
    (ReasonerState.extract_info yOracle demoState "v: {x}" (.prim "int")).result
      = .ok (.prim (.int 7)) :=
  C5_fallback_lone_value yOracle demoState "v: {x}" "int"
    [Segment.lit "v", Segment.lit ":", Segment.lit " ", Segment.field "x" none ""]
    "x" "y" (.int 7) "remember_x" rfl rfl rfl rfl (by decide)

/-- The stubbed provider of the C7 scenario: a forced function call answering
`{"age": 25}`. -/
def ageOracle : CompletionRequest → Except String ProviderResponse :=
  fun _ => .ok (.function "remember_age" [("age", .int 25)])

/-- C7: the scenario `extract_info("The user is {age} years old.", int)` with
the provider stubbed to return arguments `{"age": 25}` yields `25` and appends
the function-role record `Stored information: "The user is 25 years old."`
tagged with the response's function name. -/
theorem C7_scenario_age :
    (ReasonerState.extract_info ageOracle demoState "The user is {age} years old."
        (.prim "int")).result = .ok (.prim (.int 25))
    ∧ (ReasonerState.extract_info ageOracle demoState "The user is {age} years old."
        (.prim "int")).state.messages
      = demoState.messages
        ++ [⟨"function", "Stored information: \"The user is 25 years old.\"",
             some "remember_age"⟩] := by
  exact ⟨rfl, by decide⟩

/-- C8: with exactly one placeholder, `extract_info` issues exactly one
completion request, whose options hold a single function schema named
`remember_<field_name>` and a directive forcing exactly that function; a
non-function reply makes it fail with the unexpected-response error carrying
the raw content. -/
theorem C8_forced_function_request (complete : CompletionRequest → Except String ProviderResponse)
    (s : ReasonerState) (fmt : String) (ty : OutputType) (segs : List Segment)
    (f : String) (cv : Option Char) (sp : String)
    (hparse : parseFormat fmt = some segs) (hpl : placeholders segs = [(f, cv, sp)]) :
    (ReasonerState.extract_info complete s fmt ty).trace = [mkRemember s fmt ty f]
    ∧ (mkRemember s fmt ty f).functions.map FunctionSchema.name = ["remember_" ++ f]
    ∧ (mkRemember s fmt ty f).function_call = "remember_" ++ f
    ∧ (∀ content, complete (mkRemember s fmt ty f) = .ok (.plain content) →
        (ReasonerState.extract_info complete s fmt ty).result
          = .error (.unexpectedResponse content)) := by
  rw [extract_info_eq_go complete s fmt ty segs f cv sp hparse hpl]
  refine ⟨(extract_go_spec complete s fmt ty segs f).1, rfl, rfl, ?_⟩
  intro content hc
  simp [extract_go, hc]

/-- C8, witness at a concrete one-placeholder template and a plain reply. -/
theorem C8_forced_function_request_witness :
    (ReasonerState.extract_info plainOracle demoState "v: {x}" (.prim "int")).trace
      = [mkRemember demoState "v: {x}" (.prim "int") "x"]
    ∧ (mkRemember demoState "v: {x}" (.prim "int") "x").functions.map FunctionSchema.name
      = ["remember_" ++ "x"]
    ∧ (mkRemember demoState "v: {x}" (.prim "int") "x").function_call = "remember_" ++ "x"
    ∧ (∀ content,
        plainOracle (mkRemember demoState "v: {x}" (.prim "int") "x") = .ok (.plain content) →
        (ReasonerState.extract_info plainOracle demoState "v: {x}" (.prim "int")).result
          = .error (.unexpectedResponse content)) :=
  C8_forced_function_request plainOracle demoState "v: {x}" (.prim "int")
    [Segment.lit "v", Segment.lit ":", Segment.lit " ", Segment.field "x" none ""]
    "x" none "" rfl rfl

/-- The docstring's `Person` record: `name` and `twitter_handle` required,
`is_based` defaulting to `False`. -/
def Person : PydModel :=
  ⟨[("name", none), ("twitter_handle", none), ("is_based", some (.bool false))]⟩

/-- The provider arguments of the docstring's `Person` example. -/
def personArgs : List (String × Value) :=
  [("name", .str "Ivan Yevenko"), ("twitter_handle", .str "@ivan_yevenko"),
   ("is_based", .bool true)]

/-- An oracle answering the forced call with the `Person` arguments. -/
def personOracle : CompletionRequest → Except String ProviderResponse :=
  fun _ => .ok (.function "remember_person" personArgs)

/-- C1: the pydantic branch of `extract_info` calls
`output_type.model_construct(value)`, which passes the argument dict into the
positional `_fields_set` parameter, so even when the arguments exactly match
the record's declared fields the constructed instance's fields are NOT those
arguments (only the one defaulted field is set) — refuting the claimed
round-trip and the function's own docstring example (lines 84-92). -/
theorem C1_model_construct_bug :
    (ReasonerState.extract_info personOracle demoState "Added {person} to the database."
        (.model Person)).result
      = .ok (.inst { dict := [("is_based", .bool false)], fields_set := some personArgs })
    ∧ Person.model_construct (some personArgs) []
        ≠ { dict := personArgs, fields_set := some personArgs }
    ∧ ([(("is_based" : String), Value.bool false)] : List (String × Value)) ≠ personArgs := by
  exact ⟨rfl, by decide, by decide⟩

end StructuredFollower
